import Mathlib

/-!
# go-in-live: a shallow embedding of `main.go`

The program keeps its state in package-level variables and talks to the
operating system, the `fsnotify` watcher and the `termbox` terminal.  The
embedding below passes the package-level variables explicitly (`State`),
records every call that leaves the program in a chronological `trace`, and
takes the outcome of each fallible outside call from an `Env`.

Conventions of the model:

* `State.tick` counts the fallible outside calls made so far; the call made at
  tick `n` fails with `e.fail n = some err` and succeeds when `e.fail n = none`.
  Every sequence of outcomes an execution can meet is obtained from some `Env`.
* a process handle (`*os.Process`) and a file handle (`*os.File`) are natural
  numbers, `nil` is `none`;
* `os.Stat` succeeds exactly when the file exists;
* `Process.Wait` returns (its result is discarded by the program);
* a Go `error` is the string it prints;
* the watcher keys its subscriptions by `filepath.Clean` of the path, as
  fsnotify does in `Add` and in `Remove`, so `./.c0d3v` and `.c0d3v` name the
  same subscription.
-/

namespace GoInLive

/-! ## Constants (main.go, lines 26-30) -/

def c0d3vFilePath : String := "./.c0d3v"

def exeFile : String := "_test.exe"

/-! ## The two string functions of the Go library the program calls -/

/-- Go `strings.Replace(s, old, new, -1)` for a non-empty `old`, over the
characters of `s`: scanning from the left, every occurrence of `old` that does
not overlap an earlier replaced one is replaced by `new`.  The first argument
counts the characters of a matched `old` still to be skipped. -/
def replaceFrom (old new : List Char) : Nat → List Char → List Char
  | _, [] => []
  | k + 1, _ :: cs => replaceFrom old new k cs
  | 0, c :: cs =>
    if old.isPrefixOf (c :: cs) then new ++ replaceFrom old new (old.length - 1) cs
    else c :: replaceFrom old new 0 cs

/-- Go `strings.Replace(s, old, new, -1)` on strings (`old` non-empty). -/
def stringsReplaceAll (s old new : String) : String :=
  String.mk (replaceFrom old.toList new.toList 0 s.toList)

/-- Go `strings.Split(s, sep)` for a one-character separator, on characters:
the result always has at least one field, and two adjacent separators give an
empty field. -/
def splitChars (sep : Char) : List Char → List (List Char)
  | [] => [[]]
  | c :: cs =>
    if c = sep then [] :: splitChars sep cs
    else
      match splitChars sep cs with
      | [] => [[c]]
      | w :: ws => (c :: w) :: ws

/-- Go `strings.Split(s, " ")`. -/
def stringsSplitSpace (s : String) : List String :=
  (splitChars ' ' s.toList).map String.mk

/-- The pass of Go `filepath.Clean` over the elements of a slash-separated
path, the kept elements being stacked last first: empty elements and `.` are
dropped; `..` removes the element before it, is dropped at the root, and is
kept at the start of a path that is not rooted. -/
def cleanElements (rooted : Bool) : List (List Char) → List (List Char) → List (List Char)
  | [], kept => kept.reverse
  | c :: cs, kept =>
    if c = [] ∨ c = ['.'] then cleanElements rooted cs kept
    else if c = ['.', '.'] then
      match kept with
      | top :: below =>
        if top = ['.', '.'] then cleanElements rooted cs (c :: kept)
        else cleanElements rooted cs below
      | [] => if rooted then cleanElements rooted cs [] else cleanElements rooted cs [c]
    else cleanElements rooted cs (c :: kept)

/-- Go `filepath.Clean(path)` for slash-separated paths: the shortest path
naming the same file by the rules above, `.` for the empty result. -/
def filepathClean (path : String) : String :=
  let rooted := path.toList.head? = some '/'
  let body := List.intercalate ['/'] (cleanElements rooted (splitChars '/' path.toList) [])
  let out := if rooted then '/' :: body else body
  if out = [] then "." else String.mk out

/-! ## Observable calls -/

/-- A watcher notification (`fsnotify.Event`): the path and the operation bits. -/
structure FsEvent where
  name : String
  op : Nat
  deriving DecidableEq, Repr

/-- The calls the program makes to the outside, in the order it makes them.
A fallible call carries the error it returned (`none`: success). -/
inductive Effect where
  /-- Call `log.Printf("File event [%v]", ev)`. -/
  | logFileEvent (ev : FsEvent)
  /-- Call `log.Printf("ex. %v\n", cmd)`. -/
  | logEx (cmd : String)
  /-- Call `log.Println(msg)`. -/
  | logLine (msg : String)
  /-- The logging half of `log.Panic(err)`. -/
  | logPanic (err : String)
  /-- Call `exec.Command(name, args...).Run()`: run to completion. -/
  | cmdRun (name : String) (args : List String) (err : Option String)
  /-- Call `exec.Command(name, args...).Start()`, with whether stdin was connected. -/
  | cmdStart (name : String) (args : List String) (stdin : Bool) (err : Option String)
  /-- Call `p.Kill()`. -/
  | kill (pid : Nat) (err : Option String)
  /-- Call `p.Wait()`. -/
  | wait (pid : Nat)
  /-- Call `os.Stat(path)`, with whether it succeeded. -/
  | stat (path : String) (found : Bool)
  /-- Call `os.OpenFile(path, O_WRONLY+O_CREATE, 655)`. -/
  | openFile (path : String) (err : Option String)
  /-- Call `c0d3vFile.Close()`. -/
  | close (err : Option String)
  /-- Call `os.Remove(path)`. -/
  | remove (path : String) (err : Option String)
  /-- Call `watcher.Add(path)`. -/
  | watchAdd (path : String) (err : Option String)
  /-- Call `watcher.Remove(path)`. -/
  | watchRemove (path : String)
  /-- Call `termbox.Sync()`. -/
  | termSync
  /-- Call `group.Done()`. -/
  | groupDone
  /-- Call `os.Exit(code)`. -/
  | exit (code : Nat)
  deriving DecidableEq, Repr

/-- Outcomes of the outside world. -/
structure Env where
  /-- The error of the fallible call made at a given tick. -/
  fail : Nat → Option String
  /-- Whether the build command run at a given tick leaves the artifact behind. -/
  creates : Nat → Bool

/-- The package-level variables (main.go, lines 32-40) together with the part
of the outside world the program reads back. -/
structure State where
  cmdBuild : String
  cmdRun : String
  redirectInput : Bool
  watchersPaths : List String
  c0d3vFile : Option Nat
  runProcess : Option Nat
  /-- The cleaned paths the watcher is subscribed to. -/
  subscribed : List String
  /-- Whether `./.c0d3v` exists. -/
  markerExists : Bool
  /-- Whether `_test.exe` exists. -/
  exeExists : Bool
  tick : Nat
  trace : List Effect
  deriving DecidableEq, Repr

/-- Result of a function that may end in `log.Panic`. -/
inductive Res (α : Type) where
  | ret (a : α) (s : State)
  | panicked (err : String) (s : State)
  deriving DecidableEq, Repr

/-- Record a call in the trace. -/
def State.emit (s : State) (x : Effect) : State :=
  { s with trace := s.trace ++ [x] }

/-- Advance the tick after a fallible outside call. -/
def State.step (s : State) : State :=
  { s with tick := s.tick + 1 }

/-! ## init (main.go, lines 55-56) -/

/-- The two assignments of `init` that fix the commands:
`cmdBuild = strings.Replace(cmdBuild, "$1", exeFile, -1)` and the same for
`cmdRun`. -/
def init (s : State) : State :=
  { s with
    cmdBuild := stringsReplaceAll s.cmdBuild "$1" exeFile
    cmdRun := stringsReplaceAll s.cmdRun "$1" exeFile }

/-! ## build, run, buildAndRun (main.go, lines 223-275) -/

/-- The function `build` (main.go, lines 237-251). -/
def build (e : Env) (s : State) : Option String × State :=
  let s1 := s.emit (.logEx s.cmdBuild)
  let exeLine := stringsSplitSpace s1.cmdBuild
  let err := e.fail s1.tick
  let s2 := { (s1.emit (.cmdRun (exeLine.headD "") exeLine.tail err)).step with
                exeExists := s1.exeExists || e.creates s1.tick }
  match err with
  | some x => (some x, s2)
  | none => (none, s2)

/-- The function `run` (main.go, lines 253-275): the new handle, or the error.
The handle of a started process is the tick of the `Start` call. -/
def run (e : Env) (s : State) : (Option Nat × Option String) × State :=
  let s1 :=
    match s.runProcess with
    | some p => (s.emit (.kill p (e.fail s.tick))).step
    | none => s
  let s2 := s1.emit (.logEx s1.cmdRun)
  let exeLine := stringsSplitSpace s2.cmdRun
  let err := e.fail s2.tick
  let s3 := (s2.emit (.cmdStart (exeLine.headD "") exeLine.tail s2.redirectInput err)).step
  match err with
  | some x => ((none, some x), s3)
  | none => ((some s2.tick, none), s3)

/-- The function `buildAndRun` (main.go, lines 223-235). -/
def buildAndRun (e : Env) (s : State) : Option String × State :=
  match build e s with
  | (some err, s1) => (some err, s1)
  | (none, s1) =>
    match run e s1 with
    | ((p, some err), s2) => (some err, { s2 with runProcess := p })
    | ((p, none), s2) => (none, { s2 with runProcess := p })

/-! ## The watcher (main.go, lines 110-122) -/

/-- The effect of `watcher.Add(path)` (its error is discarded by the program):
when the call succeeds the cleaned path is subscribed. -/
def watcherAdd (e : Env) (path : String) (s : State) : State :=
  let err := e.fail s.tick
  { (s.emit (.watchAdd path err)).step with
    subscribed :=
      match err with
      | some _ => s.subscribed
      | none =>
        if filepathClean path ∈ s.subscribed then s.subscribed
        else s.subscribed ++ [filepathClean path] }

/-- The effect of `watcher.Remove(path)` (its error is discarded by the
program): the cleaned path is no longer subscribed. -/
def watcherRemove (path : String) (s : State) : State :=
  { s.emit (.watchRemove path) with
    subscribed := s.subscribed.filter (fun q => q ≠ filepathClean path) }

/-- The loop of `initWatcher` over the paths still to visit. -/
def initWatcherLoop (e : Env) : List String → State → Res Unit
  | [], s => .ret () s
  | path :: rest, s =>
    if path = c0d3vFilePath then
      match e.fail s.tick with
      | some err =>
        .panicked err
          (({ (s.emit (.openFile c0d3vFilePath (some err))).step with
              c0d3vFile := none }).emit (.logPanic err))
      | none =>
        initWatcherLoop e rest
          (watcherAdd e path
            { (s.emit (.openFile c0d3vFilePath none)).step with
              c0d3vFile := some s.tick, markerExists := true })
    else
      initWatcherLoop e rest (watcherAdd e path s)

/-- The function `initWatcher` (main.go, lines 110-122). -/
def initWatcher (e : Env) (s : State) : Res Unit :=
  initWatcherLoop e s.watchersPaths s

/-! ## shutDown (main.go, lines 124-151) -/

/-- First block of `shutDown` (main.go, lines 127-133):
`if runProcess != nil { Kill, collecting its error; Wait }`. -/
def stopCurrent (e : Env) (acc : List String × State) : List String × State :=
  let (errs, s) := acc
  match s.runProcess with
  | some p =>
    let err := e.fail s.tick
    let s1 := ((s.emit (.kill p err)).step).emit (.wait p)
    match err with
    | some x => (errs ++ ["error killing process\n" ++ x], s1)
    | none => (errs, s1)
  | none => (errs, s)

/-- Second block of `shutDown` (main.go, lines 135-142): when `os.Stat` finds
the marker file, close `c0d3vFile` and remove the marker file, collecting both
errors.  `Close` on a nil file returns `os.ErrInvalid` without reaching the
operating system. -/
def removeMarker (e : Env) (acc : List String × State) : List String × State :=
  let (errs, s0) := acc
  let s := s0.emit (.stat c0d3vFilePath s0.markerExists)
  if s.markerExists then
    let (errs, s) :=
      match s.c0d3vFile with
      | some _ =>
        let err := e.fail s.tick
        let s1 := (s.emit (.close err)).step
        match err with
        | some x => (errs ++ ["error closing file\n" ++ x], s1)
        | none => (errs, s1)
      | none =>
        (errs ++ ["error closing file\n" ++ "invalid argument"],
          s.emit (.close (some "invalid argument")))
    let err := e.fail s.tick
    let s1 := (s.emit (.remove c0d3vFilePath err)).step
    match err with
    | some x => (errs ++ ["error deleting " ++ c0d3vFilePath ++ " file\n" ++ x], s1)
    | none => (errs, { s1 with markerExists := false })
  else (errs, s)

/-- Third block of `shutDown` (main.go, lines 144-148): when `os.Stat` finds
the artifact, remove it, collecting the error. -/
def removeArtifact (e : Env) (acc : List String × State) : List String × State :=
  let (errs, s0) := acc
  let s := s0.emit (.stat exeFile s0.exeExists)
  if s.exeExists then
    let err := e.fail s.tick
    let s1 := (s.emit (.remove exeFile err)).step
    match err with
    | some x => (errs ++ ["error deleting " ++ exeFile ++ " file\n" ++ x], s1)
    | none => (errs, { s1 with exeExists := false })
  else (errs, s)

/-- The function `shutDown` (main.go, lines 124-151): the collected errors and
the state it leaves; its three blocks run in order, starting from an empty
error list. -/
def shutDown (e : Env) (s : State) : List String × State :=
  removeArtifact e (removeMarker e (stopCurrent e ([], s)))

/-! ## The change-event listener (main.go, lines 159-170) -/

/-- The body of the loop of `filesWatcherEventsProcessor`: the `default` branch
of the switch on `ev.Op`, the only branch there is. -/
def fileEventStep (e : Env) (ev : FsEvent) (s : State) : Res Unit :=
  let s1 := s.emit (.logFileEvent ev)
  let s2 := (buildAndRun e s1).2
  let s3 := watcherRemove ev.name s2
  initWatcher e s3

/-- The function `filesWatcherEventsProcessor` (main.go, lines 159-170) on the
events the channel delivers before it is closed. -/
def filesWatcherEventsProcessor (e : Env) : List FsEvent → State → Res Unit
  | [], s => .ret () s
  | ev :: rest, s =>
    match fileEventStep e ev s with
    | .ret _ s1 => filesWatcherEventsProcessor e rest s1
    | .panicked err s1 => .panicked err s1

/-! ## The terminal listener (main.go, lines 172-221) -/

/-- Kinds of `termbox.Event`. -/
inductive EventType where
  | EventKey | EventResize | EventMouse | EventError | EventInterrupt
  | EventRaw | EventNone
  deriving DecidableEq, Repr

/-- The fields of `termbox.Event` the program reads. -/
structure TermEvent where
  type : EventType
  key : Nat
  err : String
  deriving DecidableEq, Repr

/-! The key codes of termbox-go (`termbox.Key` is a `uint16`). -/

def KeyF5 : Nat := 0xFFFF - 4

def KeyCtrlA : Nat := 0x01

def KeyCtrlB : Nat := 0x02

def KeyCtrlQ : Nat := 0x11

def KeyCtrlR : Nat := 0x12

/-- The function `keyEvent` (main.go, lines 190-221). -/
def keyEvent (e : Env) (ev : TermEvent) (s : State) : Res Bool :=
  if ev.key = KeyF5 then
    .ret false ((s.emit (.logLine "Screen resync...")).emit .termSync)
  else if ev.key = KeyCtrlQ then
    .ret true (s.emit (.logLine "Quit!"))
  else if ev.key = KeyCtrlB then
    match build e (s.emit (.logLine "Build the project.")) with
    | (some err, s1) => .panicked err (s1.emit (.logPanic err))
    | (none, s1) => .ret false s1
  else if ev.key = KeyCtrlR then
    match run e (s.emit (.logLine "Run the executable.")) with
    | ((p, some err), s1) =>
      .panicked err ({ s1 with runProcess := p }.emit (.logPanic err))
    | ((p, none), s1) => .ret false { s1 with runProcess := p }
  else if ev.key = KeyCtrlA then
    match buildAndRun e (s.emit (.logLine "Build & Run.")) with
    | (some err, s1) => .panicked err (s1.emit (.logPanic err))
    | (none, s1) => .ret false s1
  else
    .ret false s

/-- How the terminal loop stands after the events it was given. -/
inductive LoopEnd where
  /-- The loop was left and `group.Done()` was called. -/
  | done (s : State)
  /-- The loop is blocked in `termbox.PollEvent()`. -/
  | polling (s : State)
  /-- The goroutine ended in `log.Panic`. -/
  | panicked (err : String) (s : State)
  deriving DecidableEq, Repr

/-- The function `consoleEventsLoop` (main.go, lines 172-188) on the events
`termbox.PollEvent()` delivers. -/
def consoleEventsLoop (e : Env) : List TermEvent → State → LoopEnd
  | [], s => .polling s
  | ev :: rest, s =>
    match ev.type with
    | .EventKey =>
      match keyEvent e ev s with
      | .ret true s1 => .done (s1.emit .groupDone)
      | .ret false s1 => consoleEventsLoop e rest s1
      | .panicked err s1 => .panicked err s1
    | .EventError => .panicked ev.err (s.emit (.logPanic ev.err))
    | _ => consoleEventsLoop e rest s

/-- The end of `main` (lines 94-107) as the main goroutine sees it, the two
background listeners being idle: `waitMe.Wait()` returns only once the terminal
loop has called `group.Done()`; then `shutDown` runs, its errors are logged and
the program exits with status 0.  A panic of the terminal loop ends the program
before `shutDown`. -/
def mainFromLoop (e : Env) (evs : List TermEvent) (s : State) : LoopEnd :=
  match consoleEventsLoop e evs s with
  | .done s1 =>
    let (errs, s2) := shutDown e s1
    let s3 :=
      if errs.length > 0 then
        errs.foldl (fun st err => st.emit (.logLine err))
          (s2.emit (.logLine "Some errors ocurres during shutting down."))
      else s2
    .done (s3.emit (.exit 0))
  | .polling s1 => .polling s1
  | .panicked err s1 => .panicked err s1

/-! ## Reading results and traces -/

/-- The state a possibly panicking function leaves. -/
def Res.state {α : Type} : Res α → State
  | .ret _ s => s
  | .panicked _ s => s

/-- Whether the function ended in `log.Panic`. -/
def Res.isPanic {α : Type} : Res α → Bool
  | .ret _ _ => false
  | .panicked _ _ => true

/-- A process is killed. -/
def Effect.isKill : Effect → Bool
  | .kill _ _ => true
  | _ => false

/-- A process is waited on. -/
def Effect.isWait : Effect → Bool
  | .wait _ => true
  | _ => false

/-- A command is run to completion (the build command). -/
def Effect.isCmdRun : Effect → Bool
  | .cmdRun _ _ _ => true
  | _ => false

/-- A step of `shutDown` or of the end of `main`: a file is examined, closed
or removed, a process is waited on, the terminal loop signals completion, the
program exits. -/
def Effect.isTeardown : Effect → Bool
  | .stat _ _ => true
  | .close _ => true
  | .remove _ _ => true
  | .wait _ => true
  | .groupDone => true
  | .exit _ => true
  | _ => false

/-- The result of a call `initWatcher` makes: of an open of the marker file, of
a subscription request. -/
def Effect.initOutcome : Effect → Option (Option String)
  | .openFile _ r => some r
  | .watchAdd _ r => some r
  | _ => none

/-- Whether the calls of `initWatcher` in a list carry, one after the other,
the results the outside world gives from tick `n` on. -/
def followsEnv (e : Env) : Nat → List Effect → Bool
  | _, [] => true
  | n, x :: xs =>
    match x.initOutcome with
    | some r => decide (r = e.fail n) && followsEnv e (n + 1) xs
    | none => followsEnv e n xs

/-- The calls of a run of `initWatcher` that goes through paths with the given
results of `watcher.Add`: for each path in turn the marker file is reopened
first (with success) when the path is the marker's, then the path is asked to
be subscribed. -/
def resubscribeCalls : List (String × Option String) → List Effect
  | [] => []
  | (p, r) :: rest =>
    (if p = c0d3vFilePath then [Effect.openFile c0d3vFilePath none] else []) ++
      Effect.watchAdd p r :: resubscribeCalls rest

/-! ## Concrete inputs -/

/-- Every outside call succeeds; the build leaves the artifact. -/
def okEnv : Env := { fail := fun _ => none, creates := fun _ => true }

/-- The first outside call fails with the error of a command that exits with
status 1, every later one succeeds. -/
def firstFailsEnv : Env :=
  { fail := fun n => if n = 0 then some "exit status 1" else none, creates := fun _ => false }

/-- The first outside call fails with the error of `Kill` on a process that has
already ended, every later one succeeds. -/
def killFailsEnv : Env :=
  { fail := fun n => if n = 0 then some "os: process already finished" else none,
    creates := fun _ => false }

/-- The third outside call fails, the others succeed. -/
def thirdFailsEnv : Env :=
  { fail := fun n => if n = 2 then some "no such file or directory" else none,
    creates := fun _ => true }

/-- The third outside call fails with a permission error, the others
succeed. -/
def deniedEnv : Env :=
  { fail := fun n => if n = 2 then some "permission denied" else none,
    creates := fun _ => true }

/-- A session with the default commands, watching the marker file and
`main.go`, with process 7 running. -/
def busyState : State :=
  { cmdBuild := "go build -o _test.exe"
    cmdRun := "_test.exe"
    redirectInput := false
    watchersPaths := ["./.c0d3v", "main.go"]
    c0d3vFile := some 3
    runProcess := some 7
    subscribed := [".c0d3v", "main.go"]
    markerExists := true
    exeExists := true
    tick := 0
    trace := [] }

/-- A session watching the marker file and `main.go`, with no process
running. -/
def markerState : State := { busyState with runProcess := none }

/-- The key event of Ctrl-B (build). -/
def ctrlB : TermEvent := { type := .EventKey, key := KeyCtrlB, err := "" }

/-- The key event of the letter `x` (`Key` is 0 for a character). -/
def letterX : TermEvent := { type := .EventKey, key := 0, err := "" }

/-- A write notification on the marker file, named as the watcher names it. -/
def markerWritten : FsEvent := { name := ".c0d3v", op := 2 }

/-- A write notification on `main.go`. -/
def mainGoWritten : FsEvent := { name := "main.go", op := 2 }

/-- A session watching only `main.go`, with no process, no marker file and no
artifact. -/
def idleState : State :=
  { cmdBuild := "go build -o _test.exe"
    cmdRun := "_test.exe"
    redirectInput := false
    watchersPaths := ["main.go"]
    c0d3vFile := none
    runProcess := none
    subscribed := ["main.go"]
    markerExists := false
    exeExists := false
    tick := 0
    trace := [] }

/-! ## Basic facts about the trace -/

@[simp] theorem emit_trace (s : State) (x : Effect) : (s.emit x).trace = s.trace ++ [x] := rfl

@[simp] theorem step_trace (s : State) : s.step.trace = s.trace := rfl

@[simp] theorem emit_tick (s : State) (x : Effect) : (s.emit x).tick = s.tick := rfl

@[simp] theorem step_tick (s : State) : s.step.tick = s.tick + 1 := rfl

@[simp] theorem emit_runProcess (s : State) (x : Effect) :
    (s.emit x).runProcess = s.runProcess := rfl

@[simp] theorem step_runProcess (s : State) : s.step.runProcess = s.runProcess := rfl

/-- What `build` does: one log line, one command run to completion at the
current tick, whose error it returns. -/
theorem build_eq (e : Env) (s : State) :
    build e s =
      (e.fail s.tick,
        { s with
          trace := s.trace ++ [.logEx s.cmdBuild,
            .cmdRun ((stringsSplitSpace s.cmdBuild).headD "")
              (stringsSplitSpace s.cmdBuild).tail (e.fail s.tick)]
          tick := s.tick + 1
          exeExists := s.exeExists || e.creates s.tick }) := by
  unfold build
  cases h : e.fail s.tick <;> simp [State.emit, State.step, h]

/-- C1: when `build()` returns an error, `buildAndRun()` returns that very
error in the state `build()` left: the only calls made are the log line and the
build command of `build()` (no process is killed, no run command is started),
and `runProcess` is unchanged. -/
theorem buildAndRun_build_error (e : Env) (s : State) (err : String)
    (h : (build e s).1 = some err) :
    buildAndRun e s = (some err, (build e s).2) ∧
    (buildAndRun e s).2.runProcess = s.runProcess ∧
    (buildAndRun e s).2.trace =
      s.trace ++ [.logEx s.cmdBuild,
        .cmdRun ((stringsSplitSpace s.cmdBuild).headD "")
          (stringsSplitSpace s.cmdBuild).tail (some err)] := by
  rw [build_eq] at h
  simp only at h
  have hb : buildAndRun e s = (some err, (build e s).2) := by
    unfold buildAndRun
    rw [build_eq, h]
  rw [hb]
  refine ⟨rfl, ?_, ?_⟩
  · rw [build_eq]
  · rw [build_eq, h]

/-- Witness of C1: with the default build command and a build that exits with
status 1, `buildAndRun()` returns that error and process 7 stays current. -/
theorem buildAndRun_build_error_witness :
    (build firstFailsEnv busyState).1 = some "exit status 1" ∧
    (buildAndRun firstFailsEnv busyState =
       (some "exit status 1", (build firstFailsEnv busyState).2) ∧
     (buildAndRun firstFailsEnv busyState).2.runProcess = busyState.runProcess ∧
     (buildAndRun firstFailsEnv busyState).2.trace =
       busyState.trace ++ [.logEx busyState.cmdBuild,
         .cmdRun ((stringsSplitSpace busyState.cmdBuild).headD "")
           (stringsSplitSpace busyState.cmdBuild).tail (some "exit status 1")]) :=
  ⟨by decide, buildAndRun_build_error firstFailsEnv busyState "exit status 1" (by decide)⟩

/-- C2: `run()` with process 7 current, every call succeeding: process 7 is
killed, then the run command is started and its handle returned; process 7 is
never waited on, neither by `run()` nor by `buildAndRun()`, which stores the new
handle as current. -/
theorem run_replaces_without_wait :
    (run okEnv busyState).2.trace =
      [.kill 7 none, .logEx "_test.exe", .cmdStart "_test.exe" [] false none] ∧
    (run okEnv busyState).1 = (some 1, none) ∧
    (buildAndRun okEnv busyState).2.trace =
      [.logEx "go build -o _test.exe", .cmdRun "go" ["build", "-o", "_test.exe"] none,
       .kill 7 none, .logEx "_test.exe", .cmdStart "_test.exe" [] false none] ∧
    (buildAndRun okEnv busyState).2.runProcess = some 2 ∧
    Effect.wait 7 ∉ (buildAndRun okEnv busyState).2.trace := by
  decide

/-! ## The three blocks of shutDown -/

theorem stopCurrent_none (e : Env) (errs : List String) (s : State)
    (hp : s.runProcess = none) : stopCurrent e (errs, s) = (errs, s) := by
  unfold stopCurrent
  simp only [hp]

theorem stopCurrent_some (e : Env) (errs : List String) (s : State) (p : Nat)
    (hp : s.runProcess = some p) :
    stopCurrent e (errs, s) =
      ((match e.fail s.tick with
        | some x => errs ++ ["error killing process\n" ++ x]
        | none => errs),
       { s with
         trace := s.trace ++ [.kill p (e.fail s.tick), .wait p]
         tick := s.tick + 1 }) := by
  unfold stopCurrent
  simp only [hp]
  cases e.fail s.tick <;> simp [State.emit, State.step, hp]

theorem removeMarker_absent (e : Env) (errs : List String) (s : State)
    (hm : s.markerExists = false) :
    removeMarker e (errs, s) = (errs, s.emit (.stat c0d3vFilePath false)) := by
  unfold removeMarker
  simp [State.emit, hm]

theorem removeMarker_ok (e : Env) (errs : List String) (s : State) (h : Nat)
    (hm : s.markerExists = true) (hf : s.c0d3vFile = some h)
    (h1 : e.fail s.tick = none) (h2 : e.fail (s.tick + 1) = none) :
    removeMarker e (errs, s) =
      (errs,
       { s with
         trace := s.trace ++ [.stat c0d3vFilePath true, .close none,
           .remove c0d3vFilePath none]
         tick := s.tick + 2
         markerExists := false }) := by
  unfold removeMarker
  simp [State.emit, State.step, hm, hf, h1, h2]

theorem removeArtifact_absent (e : Env) (errs : List String) (s : State)
    (hx : s.exeExists = false) :
    removeArtifact e (errs, s) = (errs, s.emit (.stat exeFile false)) := by
  unfold removeArtifact
  simp [State.emit, hx]

theorem removeArtifact_ok (e : Env) (errs : List String) (s : State)
    (hx : s.exeExists = true) (h1 : e.fail s.tick = none) :
    removeArtifact e (errs, s) =
      (errs,
       { s with
         trace := s.trace ++ [.stat exeFile true, .remove exeFile none]
         tick := s.tick + 1
         exeExists := false }) := by
  unfold removeArtifact
  simp [State.emit, State.step, hx, h1]

theorem stopCurrent_runProcess (e : Env) (acc : List String × State) :
    (stopCurrent e acc).2.runProcess = acc.2.runProcess := by
  obtain ⟨errs, s⟩ := acc
  unfold stopCurrent
  cases hp : s.runProcess <;> cases he : e.fail s.tick <;> simp [hp, he, State.emit, State.step]

theorem removeMarker_runProcess (e : Env) (acc : List String × State) :
    (removeMarker e acc).2.runProcess = acc.2.runProcess := by
  obtain ⟨errs, s⟩ := acc
  unfold removeMarker
  dsimp only
  split
  · split <;> split <;> (try split) <;> rfl
  · rfl

theorem removeArtifact_runProcess (e : Env) (acc : List String × State) :
    (removeArtifact e acc).2.runProcess = acc.2.runProcess := by
  obtain ⟨errs, s⟩ := acc
  unfold removeArtifact
  dsimp only
  split
  · split <;> rfl
  · rfl

/-- The calls of the second block: `Stat`, then possibly `Close` and `Remove`. -/
theorem removeMarker_trace (e : Env) (acc : List String × State) :
    ∃ rest, (removeMarker e acc).2.trace = acc.2.trace ++ rest ∧
      ∀ x ∈ rest, x.isKill = false ∧ x.isWait = false := by
  obtain ⟨errs, s⟩ := acc
  unfold removeMarker
  dsimp only
  split
  · split <;> split <;> (try split) <;>
      exact ⟨_, by simp only [State.emit, State.step, List.append_assoc]; rfl,
        by simp [Effect.isKill, Effect.isWait]⟩
  · exact ⟨_, rfl, by simp [Effect.isKill, Effect.isWait]⟩

/-- The calls of the third block: `Stat`, then possibly `Remove`. -/
theorem removeArtifact_trace (e : Env) (acc : List String × State) :
    ∃ rest, (removeArtifact e acc).2.trace = acc.2.trace ++ rest ∧
      ∀ x ∈ rest, x.isKill = false ∧ x.isWait = false := by
  obtain ⟨errs, s⟩ := acc
  unfold removeArtifact
  dsimp only
  split
  · split <;>
      exact ⟨_, by simp only [State.emit, State.step, List.append_assoc]; rfl,
        by simp [Effect.isKill, Effect.isWait]⟩
  · exact ⟨_, rfl, by simp [Effect.isKill, Effect.isWait]⟩

/-- Counterexample to C3 as stated: after `shutDown()` has killed and reaped
process 7, `runProcess` still holds 7, and a second `shutDown()` kills (and
waits on) process 7 once more. -/
theorem shutDown_leaves_runProcess_set :
    (shutDown okEnv busyState).2.runProcess = some 7 ∧
    (shutDown okEnv busyState).2.runProcess ≠ none ∧
    (shutDown okEnv (shutDown okEnv busyState).2).2.trace =
      (shutDown okEnv busyState).2.trace ++
        [.kill 7 none, .wait 7, .stat "./.c0d3v" false, .stat "_test.exe" false] := by
  decide

/-- C3, amended: `shutDown()` leaves `runProcess` as it found it.  When a
process was current, the first two calls of `shutDown()` kill it and wait on
it; when none was current, `shutDown()` kills and waits on nothing. -/
theorem shutDown_runProcess_unchanged (e : Env) (s : State) :
    (shutDown e s).2.runProcess = s.runProcess ∧
    (∀ p, s.runProcess = some p →
      ∃ rest, (shutDown e s).2.trace =
        s.trace ++ .kill p (e.fail s.tick) :: .wait p :: rest) ∧
    (s.runProcess = none →
      ∃ rest, (shutDown e s).2.trace = s.trace ++ rest ∧
        ∀ x ∈ rest, x.isKill = false ∧ x.isWait = false) := by
  refine ⟨?_, ?_, ?_⟩
  · unfold shutDown
    rw [removeArtifact_runProcess, removeMarker_runProcess, stopCurrent_runProcess]
  · intro p hp
    unfold shutDown
    obtain ⟨r3, h3, _⟩ := removeArtifact_trace e (removeMarker e (stopCurrent e ([], s)))
    obtain ⟨r2, h2, _⟩ := removeMarker_trace e (stopCurrent e ([], s))
    refine ⟨r2 ++ r3, ?_⟩
    rw [h3, h2, stopCurrent_some e [] s p hp]
    simp
  · intro hp
    unfold shutDown
    obtain ⟨r3, h3, k3⟩ := removeArtifact_trace e (removeMarker e (stopCurrent e ([], s)))
    obtain ⟨r2, h2, k2⟩ := removeMarker_trace e (stopCurrent e ([], s))
    refine ⟨r2 ++ r3, ?_, ?_⟩
    · rw [h3, h2, stopCurrent_none e [] s hp]
      simp
    · intro x hx
      rcases List.mem_append.mp hx with h | h
      · exact k2 x h
      · exact k3 x h

/-- Witness of C3 (amended) on the session with process 7 current. -/
theorem shutDown_runProcess_unchanged_witness :
    busyState.runProcess = some 7 ∧
    (shutDown okEnv busyState).2.runProcess = busyState.runProcess ∧
    ∃ rest, (shutDown okEnv busyState).2.trace =
      busyState.trace ++ .kill 7 (okEnv.fail busyState.tick) :: .wait 7 :: rest :=
  ⟨rfl, (shutDown_runProcess_unchanged okEnv busyState).1,
    (shutDown_runProcess_unchanged okEnv busyState).2.1 7 rfl⟩

/-- C4: with no current process, no marker file and no artifact, `shutDown()`
returns the empty error list and only makes its two `os.Stat` calls: nothing is
killed, waited on, closed or removed, and no variable changes. -/
theorem shutDown_idle (e : Env) (s : State) (hp : s.runProcess = none)
    (hm : s.markerExists = false) (hx : s.exeExists = false) :
    shutDown e s =
      ([], { s with
             trace := s.trace ++ [.stat c0d3vFilePath false, .stat exeFile false] }) := by
  unfold shutDown
  rw [stopCurrent_none e [] s hp, removeMarker_absent e [] s hm,
    removeArtifact_absent e [] _ (by simpa [State.emit] using hx)]
  simp [State.emit]

/-- Witness of C4 on the idle session. -/
theorem shutDown_idle_witness :
    idleState.runProcess = none ∧ idleState.markerExists = false ∧
    idleState.exeExists = false ∧
    shutDown okEnv idleState =
      ([], { idleState with
             trace := idleState.trace ++
               [.stat c0d3vFilePath false, .stat exeFile false] }) :=
  ⟨rfl, rfl, rfl, shutDown_idle okEnv idleState rfl rfl rfl⟩

/-- The calls of the second block, whatever their outcome: `Stat`, and when
the marker file exists `Close` and `Remove`.  The artifact is not touched. -/
theorem removeMarker_shape (e : Env) (errs : List String) (s : State) :
    (∃ cerr rerr, (removeMarker e (errs, s)).2.trace =
      s.trace ++
        (if s.markerExists then
          [.stat c0d3vFilePath true, .close cerr, .remove c0d3vFilePath rerr]
         else [.stat c0d3vFilePath false])) ∧
    (removeMarker e (errs, s)).2.exeExists = s.exeExists := by
  unfold removeMarker
  dsimp only
  cases hm : s.markerExists
  · exact ⟨⟨none, none, by simp [State.emit, hm]⟩, by simp [State.emit, hm]⟩
  · cases hf : s.c0d3vFile with
    | none =>
      refine ⟨⟨some "invalid argument", e.fail s.tick, ?_⟩, ?_⟩
      all_goals
        simp only [State.emit, State.step, hm, hf, if_true]
        cases e.fail s.tick <;> simp
    | some h =>
      refine ⟨⟨e.fail s.tick, e.fail (s.tick + 1), ?_⟩, ?_⟩
      all_goals
        simp only [State.emit, State.step, hm, hf, if_true]
        cases e.fail s.tick <;> cases e.fail (s.tick + 1) <;> simp

/-- The calls of the third block, whatever their outcome: `Stat`, and when the
artifact exists `Remove`. -/
theorem removeArtifact_shape (e : Env) (errs : List String) (s : State) :
    ∃ xerr, (removeArtifact e (errs, s)).2.trace =
      s.trace ++
        (if s.exeExists then [.stat exeFile true, .remove exeFile xerr]
         else [.stat exeFile false]) := by
  unfold removeArtifact
  dsimp only
  cases hx : s.exeExists
  · exact ⟨none, by simp [State.emit, hx]⟩
  · refine ⟨e.fail s.tick, ?_⟩
    simp only [State.emit, State.step, hx, if_true]
    cases e.fail s.tick <;> simp

/-- C5: when a process is current and killing it fails, `shutDown()` goes on:
it waits on the process, then stats the marker file and, when it exists, closes
and removes it, then stats the artifact and, when it exists, removes it,
whatever these calls return.  When moreover the close (on an open `c0d3vFile`)
and the removals, which are the calls of the next three ticks, succeed, the
returned list is exactly the one error reporting the failed kill, and both
files are gone. -/
theorem shutDown_kill_failure (e : Env) (s : State) (p : Nat) (ke : String)
    (hp : s.runProcess = some p) (hk : e.fail s.tick = some ke) :
    (∃ cerr rerr xerr, (shutDown e s).2.trace =
      s.trace ++ [.kill p (some ke), .wait p] ++
        (if s.markerExists then
          [.stat c0d3vFilePath true, .close cerr, .remove c0d3vFilePath rerr]
         else [.stat c0d3vFilePath false]) ++
        (if s.exeExists then [.stat exeFile true, .remove exeFile xerr]
         else [.stat exeFile false])) ∧
    ((s.markerExists = true → s.c0d3vFile ≠ none) →
      (∀ n, s.tick < n → n ≤ s.tick + 3 → e.fail n = none) →
      (shutDown e s).1 = ["error killing process\n" ++ ke] ∧
      (shutDown e s).2.trace =
        s.trace ++ [.kill p (some ke), .wait p] ++
          (if s.markerExists then
            [.stat c0d3vFilePath true, .close none, .remove c0d3vFilePath none]
           else [.stat c0d3vFilePath false]) ++
          (if s.exeExists then [.stat exeFile true, .remove exeFile none]
           else [.stat exeFile false]) ∧
      (shutDown e s).2.markerExists = false ∧
      (shutDown e s).2.exeExists = false) := by
  constructor
  · unfold shutDown
    rw [stopCurrent_some e [] s p hp, hk]
    obtain ⟨⟨cerr, rerr, hm⟩, hx⟩ := removeMarker_shape e
      (match (some ke : Option String) with
        | some x => [] ++ ["error killing process\n" ++ x]
        | none => [])
      { s with trace := s.trace ++ [.kill p (some ke), .wait p], tick := s.tick + 1 }
    obtain ⟨xerr, ha⟩ := removeArtifact_shape e
      (removeMarker e
        ((match (some ke : Option String) with
          | some x => [] ++ ["error killing process\n" ++ x]
          | none => []),
         { s with trace := s.trace ++ [.kill p (some ke), .wait p], tick := s.tick + 1 })).1
      (removeMarker e
        ((match (some ke : Option String) with
          | some x => [] ++ ["error killing process\n" ++ x]
          | none => []),
         { s with trace := s.trace ++ [.kill p (some ke), .wait p], tick := s.tick + 1 })).2
    exact ⟨cerr, rerr, xerr, by rw [ha, hm, hx]⟩
  intro hfile hok
  have h1 : e.fail (s.tick + 1) = none := hok _ (by omega) (by omega)
  have h2 : e.fail (s.tick + 2) = none := hok _ (by omega) (by omega)
  have h3 : e.fail (s.tick + 3) = none := hok _ (by omega) (by omega)
  unfold shutDown
  rw [stopCurrent_some e [] s p hp, hk]
  cases hm : s.markerExists <;> cases hx : s.exeExists
  · rw [removeMarker_absent _ _ _ rfl, removeArtifact_absent _ _ _ rfl]
    simp [State.emit]
  · rw [removeMarker_absent _ _ _ rfl,
      removeArtifact_ok _ _ _ rfl (by simpa [State.emit] using h1)]
    simp [State.emit]
  · obtain ⟨h, hh⟩ := Option.ne_none_iff_exists'.mp (hfile hm)
    rw [removeMarker_ok _ _ _ h rfl (by simpa using hh) (by simpa using h1)
      (by simpa using h2), removeArtifact_absent _ _ _ rfl]
    simp [State.emit]
  · obtain ⟨h, hh⟩ := Option.ne_none_iff_exists'.mp (hfile hm)
    rw [removeMarker_ok _ _ _ h rfl (by simpa using hh) (by simpa using h1)
      (by simpa using h2), removeArtifact_ok _ _ _ rfl (by simpa using h3)]
    simp

/-- Witness of C5: process 7 is current, killing it fails, the marker file and
the artifact exist. -/
theorem shutDown_kill_failure_witness :
    busyState.runProcess = some 7 ∧
    killFailsEnv.fail busyState.tick = some "os: process already finished" ∧
    (shutDown killFailsEnv busyState).1 =
      ["error killing process\n" ++ "os: process already finished"] ∧
    (shutDown killFailsEnv busyState).2.trace =
      busyState.trace ++ [.kill 7 (some "os: process already finished"), .wait 7] ++
        (if busyState.markerExists then
          [.stat c0d3vFilePath true, .close none, .remove c0d3vFilePath none]
         else [.stat c0d3vFilePath false]) ++
        (if busyState.exeExists then [.stat exeFile true, .remove exeFile none]
         else [.stat exeFile false]) ∧
    (shutDown killFailsEnv busyState).2.markerExists = false ∧
    (shutDown killFailsEnv busyState).2.exeExists = false :=
  ⟨rfl, rfl,
    (shutDown_kill_failure killFailsEnv busyState 7 "os: process already finished"
      rfl rfl).2 (by decide)
      (by
        intro n h1 _
        have hn : n ≠ 0 := Nat.pos_iff_ne_zero.mp h1
        simp [killFailsEnv, hn])⟩

/-! ## build, run and buildAndRun as seen in the trace -/

/-- What `run` does to the trace: it kills the current process if there is
one, logs, and starts the run command; it runs no command to completion and
takes no step of the teardown (in particular it waits on nothing).  The watch
set and the subscriptions are untouched. -/
theorem run_spec (e : Env) (s : State) :
    ∃ r, (run e s).2.trace = s.trace ++ r ∧
      (∀ x ∈ r, x.isCmdRun = false ∧ x.isTeardown = false) ∧
      (run e s).2.watchersPaths = s.watchersPaths ∧
      (run e s).2.subscribed = s.subscribed := by
  unfold run
  cases hp : s.runProcess with
  | none =>
    dsimp only
    refine ⟨[.logEx s.cmdRun,
      .cmdStart ((stringsSplitSpace s.cmdRun).headD "") (stringsSplitSpace s.cmdRun).tail
        s.redirectInput (e.fail s.tick)], ?_,
      by simp [Effect.isCmdRun, Effect.isTeardown], ?_, ?_⟩
    all_goals (simp only [State.emit, State.step]; split <;> simp)
  | some p =>
    dsimp only
    refine ⟨[.kill p (e.fail s.tick), .logEx s.cmdRun,
      .cmdStart ((stringsSplitSpace s.cmdRun).headD "") (stringsSplitSpace s.cmdRun).tail
        s.redirectInput (e.fail (s.tick + 1))], ?_,
      by simp [Effect.isCmdRun, Effect.isTeardown], ?_, ?_⟩
    all_goals (simp only [State.emit, State.step]; split <;> simp)

/-- What `buildAndRun` does to the trace: it runs exactly one command to
completion (the build command) and takes no step of the teardown.  The watch
set and the subscriptions are untouched. -/
theorem buildAndRun_spec (e : Env) (s : State) :
    ∃ b, (buildAndRun e s).2.trace = s.trace ++ b ∧
      b.countP Effect.isCmdRun = 1 ∧
      (∀ x ∈ b, x.isTeardown = false) ∧
      (buildAndRun e s).2.watchersPaths = s.watchersPaths ∧
      (buildAndRun e s).2.subscribed = s.subscribed := by
  unfold buildAndRun
  rw [build_eq]
  cases hf : e.fail s.tick with
  | some err =>
    exact ⟨_, rfl, by simp [Effect.isCmdRun, List.countP_cons],
      by simp [Effect.isTeardown], rfl, rfl⟩
  | none =>
    dsimp only
    obtain ⟨r, h1, h2, h3, h4⟩ := run_spec e
      { s with
        trace := s.trace ++ [.logEx s.cmdBuild,
          .cmdRun ((stringsSplitSpace s.cmdBuild).headD "")
            (stringsSplitSpace s.cmdBuild).tail none]
        tick := s.tick + 1
        exeExists := s.exeExists || e.creates s.tick }
    have hc : r.countP Effect.isCmdRun = 0 := by
      rw [List.countP_eq_zero]
      intro x hx
      simp [(h2 x hx).1]
    split <;> rename_i heq <;>
    · rw [heq] at h1 h3 h4
      dsimp only at h1 h3 h4
      refine ⟨_, by rw [h1, List.append_assoc], ?_, ?_, h3, h4⟩
      · simp [List.countP_append, hc, Effect.isCmdRun, List.countP_cons]
      · intro x hx
        simp only [List.mem_append, List.mem_cons, List.mem_singleton, List.not_mem_nil,
          or_false] at hx
        rcases hx with (hx | hx) | hx
        · simp [hx, Effect.isTeardown]
        · simp [hx, Effect.isTeardown]
        · exact (h2 x hx).2

/-! ## The watcher -/

theorem watcherAdd_trace (e : Env) (path : String) (s : State) :
    (watcherAdd e path s).trace = s.trace ++ [.watchAdd path (e.fail s.tick)] := rfl

theorem watcherAdd_tick (e : Env) (path : String) (s : State) :
    (watcherAdd e path s).tick = s.tick + 1 := rfl

/-- After `watcher.Add(path)` a cleaned path is subscribed exactly when it was
before or when it is the one just added with success. -/
theorem watcherAdd_subscribed (e : Env) (path : String) (s : State) (k : String) :
    k ∈ (watcherAdd e path s).subscribed ↔
      k ∈ s.subscribed ∨ (e.fail s.tick = none ∧ filepathClean path = k) := by
  unfold watcherAdd
  dsimp only
  cases hf : e.fail s.tick with
  | some err => simp
  | none =>
    dsimp only
    by_cases hin : filepathClean path ∈ s.subscribed
    · rw [if_pos hin]
      constructor
      · exact fun h => Or.inl h
      · rintro (h | ⟨_, h⟩)
        · exact h
        · exact h ▸ hin
    · rw [if_neg hin]
      simp only [List.mem_append, List.mem_singleton, true_and]
      constructor
      · rintro (h | h)
        · exact Or.inl h
        · exact Or.inr h.symm
      · rintro (h | h)
        · exact Or.inl h
        · exact Or.inr h.symm

/-- What the loop of `initWatcher` does from a state `s`, `w` being the calls
it appends to the trace: their results are those the outside world gives from
the current tick on; without panic `w` visits every given path in order; with
a panic `w` stops at a marker path whose reopen failed; a cleaned path is
subscribed afterwards exactly when it was before or a request for it succeeded;
the current process is untouched. -/
theorem initWatcherLoop_spec (e : Env) (paths : List String) (s : State) :
    ∃ w, (initWatcherLoop e paths s).state.trace = s.trace ++ w ∧
      followsEnv e s.tick w = true ∧
      ((initWatcherLoop e paths s).isPanic = false →
        ∃ rs, rs.map Prod.fst = paths ∧ w = resubscribeCalls rs) ∧
      ((initWatcherLoop e paths s).isPanic = true →
        ∃ rs rest err, rs.map Prod.fst ++ c0d3vFilePath :: rest = paths ∧
          w = resubscribeCalls rs ++
            [.openFile c0d3vFilePath (some err), .logPanic err]) ∧
      (∀ k, k ∈ (initWatcherLoop e paths s).state.subscribed ↔
        k ∈ s.subscribed ∨ ∃ P, filepathClean P = k ∧ Effect.watchAdd P none ∈ w) ∧
      (initWatcherLoop e paths s).state.runProcess = s.runProcess := by
  induction paths generalizing s with
  | nil =>
    refine ⟨[], by simp [initWatcherLoop, Res.state], rfl, ?_, ?_, ?_, rfl⟩
    · intro _
      exact ⟨[], rfl, rfl⟩
    · intro h
      simp [initWatcherLoop, Res.isPanic] at h
    · intro k
      simp [initWatcherLoop, Res.state]
  | cons path rest ih =>
    by_cases hpath : path = c0d3vFilePath
    · cases hf : e.fail s.tick with
      | some err =>
        have hrun : initWatcherLoop e (path :: rest) s =
            .panicked err
              (({ (s.emit (.openFile c0d3vFilePath (some err))).step with
                  c0d3vFile := none }).emit (.logPanic err)) := by
          simp [initWatcherLoop, hpath, hf]
        rw [hrun]
        refine ⟨[.openFile c0d3vFilePath (some err), .logPanic err], ?_, ?_, ?_, ?_, ?_, rfl⟩
        · simp [Res.state, State.emit, State.step]
        · simp [followsEnv, Effect.initOutcome, hf]
        · intro h
          simp [Res.isPanic] at h
        · intro _
          exact ⟨[], rest, err, by simp [hpath], rfl⟩
        · intro k
          simp [Res.state, State.emit, State.step]
      | none =>
        obtain ⟨w, h1, h2, h3, h4, h5, h6⟩ := ih
          (watcherAdd e path
            { (s.emit (.openFile c0d3vFilePath none)).step with
              c0d3vFile := some s.tick, markerExists := true })
        have hrun : initWatcherLoop e (path :: rest) s =
            initWatcherLoop e rest
              (watcherAdd e path
                { (s.emit (.openFile c0d3vFilePath none)).step with
                  c0d3vFile := some s.tick, markerExists := true }) := by
          simp [initWatcherLoop, hpath, hf]
        rw [hrun]
        refine ⟨.openFile c0d3vFilePath none :: .watchAdd path (e.fail (s.tick + 1)) :: w,
          ?_, ?_, ?_, ?_, ?_, ?_⟩
        · rw [h1, watcherAdd_trace]
          simp [State.emit, State.step]
        · have h2' : followsEnv e (s.tick + 1 + 1) w = true := h2
          simp [followsEnv, Effect.initOutcome, hf, h2']
        · intro hnp
          obtain ⟨rs, hrs, hw⟩ := h3 hnp
          exact ⟨(path, e.fail (s.tick + 1)) :: rs, by simp [hrs],
            by simp [resubscribeCalls, hpath, hw]⟩
        · intro hp
          obtain ⟨rs, rest2, err, hrs, hw⟩ := h4 hp
          exact ⟨(path, e.fail (s.tick + 1)) :: rs, rest2, err, by simp [hrs],
            by simp [resubscribeCalls, hpath, hw]⟩
        · intro k
          rw [h5 k, watcherAdd_subscribed]
          simp only [State.emit, State.step, List.mem_cons, reduceCtorEq, false_or,
            Effect.watchAdd.injEq]
          constructor
          · rintro ((h | ⟨hn, hk⟩) | ⟨P, hP, hm⟩)
            · exact Or.inl h
            · exact Or.inr ⟨path, hk, Or.inl ⟨rfl, hn.symm⟩⟩
            · exact Or.inr ⟨P, hP, Or.inr hm⟩
          · rintro (h | ⟨P, hP, (⟨hPp, hn⟩ | hm)⟩)
            · exact Or.inl (Or.inl h)
            · exact Or.inl (Or.inr ⟨hn.symm, hPp ▸ hP⟩)
            · exact Or.inr ⟨P, hP, hm⟩
        · rw [h6]
          rfl
    · obtain ⟨w, h1, h2, h3, h4, h5, h6⟩ := ih (watcherAdd e path s)
      have hrun : initWatcherLoop e (path :: rest) s =
          initWatcherLoop e rest (watcherAdd e path s) := by
        simp [initWatcherLoop, hpath]
      rw [hrun]
      refine ⟨.watchAdd path (e.fail s.tick) :: w, ?_, ?_, ?_, ?_, ?_, ?_⟩
      · rw [h1, watcherAdd_trace]
        simp
      · have h2' : followsEnv e (s.tick + 1) w = true := h2
        simp [followsEnv, Effect.initOutcome, h2']
      · intro hnp
        obtain ⟨rs, hrs, hw⟩ := h3 hnp
        exact ⟨(path, e.fail s.tick) :: rs, by simp [hrs],
          by simp [resubscribeCalls, hpath, hw]⟩
      · intro hp
        obtain ⟨rs, rest2, err, hrs, hw⟩ := h4 hp
        exact ⟨(path, e.fail s.tick) :: rs, rest2, err, by simp [hrs],
          by simp [resubscribeCalls, hpath, hw]⟩
      · intro k
        rw [h5 k, watcherAdd_subscribed]
        simp only [List.mem_cons, Effect.watchAdd.injEq]
        constructor
        · rintro ((h | ⟨hn, hk⟩) | ⟨P, hP, hm⟩)
          · exact Or.inl h
          · exact Or.inr ⟨path, hk, Or.inl ⟨rfl, hn.symm⟩⟩
          · exact Or.inr ⟨P, hP, Or.inr hm⟩
        · rintro (h | ⟨P, hP, (⟨hPp, hn⟩ | hm)⟩)
          · exact Or.inl (Or.inl h)
          · exact Or.inl (Or.inr ⟨hn.symm, hPp ▸ hP⟩)
          · exact Or.inr ⟨P, hP, hm⟩
      · rw [h6]
        rfl

/-! ## The change-event listener -/

theorem resubscribeCalls_mem (rs : List (String × Option String)) (P : String)
    (r : Option String) (h : (P, r) ∈ rs) : Effect.watchAdd P r ∈ resubscribeCalls rs := by
  induction rs with
  | nil => simp at h
  | cons x rest ih =>
    obtain ⟨p, q⟩ := x
    simp only [List.mem_cons, Prod.mk.injEq] at h
    simp only [resubscribeCalls, List.mem_append, List.mem_cons, Effect.watchAdd.injEq]
    rcases h with ⟨h1, h2⟩ | h
    · exact Or.inr (Or.inl ⟨h1, h2⟩)
    · exact Or.inr (Or.inr (ih h))

/-- Counterexample to C6 as stated, in two runs on a notification for the
watched path `main.go` (build and start succeed in both).  In the first the
watcher refuses the new subscription: the listener goes on, and `main.go` is
not subscribed afterwards.  In the second the marker file, which precedes
`main.go` in the watch set, cannot be reopened: `initWatcher` panics before it
asks for `main.go` again. -/
theorem fileEventStep_not_resubscribed :
    ("main.go" ∈ idleState.watchersPaths ∧
      (fileEventStep thirdFailsEnv mainGoWritten idleState).isPanic = false ∧
      filepathClean "main.go" ∉
        (fileEventStep thirdFailsEnv mainGoWritten idleState).state.subscribed) ∧
    ("main.go" ∈ markerState.watchersPaths ∧
      (fileEventStep deniedEnv mainGoWritten markerState).isPanic = true ∧
      (fileEventStep deniedEnv mainGoWritten markerState).state.trace =
        [.logFileEvent mainGoWritten, .logEx "go build -o _test.exe",
         .cmdRun "go" ["build", "-o", "_test.exe"] none, .logEx "_test.exe",
         .cmdStart "_test.exe" [] false none, .watchRemove "main.go",
         .openFile "./.c0d3v" (some "permission denied"), .logPanic "permission denied"] ∧
      filepathClean "main.go" ∉
        (fileEventStep deniedEnv mainGoWritten markerState).state.subscribed) := by
  decide

/-- C6, amended: on a notification whose path is, once cleaned, that of a path
`P` of the watch set, whatever the operation, the listener logs the event,
makes exactly one `buildAndRun()` call (its calls are `b`, with one build
command), unsubscribes the path of the event and runs `initWatcher` (its calls
are `w`, with the results the outside world gives).  Without panic `w` goes
through the whole watch set in order, reopening the marker file before its
path and asking for each path to be subscribed, so a subscription of `P` is
requested.  With a panic `w` stops at a marker path whose reopen failed.
Afterwards a cleaned path is subscribed exactly when it was subscribed before
and is not the path of the event, or a request for it succeeded in `w`. -/
theorem fileEventStep_resubscribes (e : Env) (s : State) (ev : FsEvent)
    (hP : ∃ P ∈ s.watchersPaths, filepathClean P = filepathClean ev.name) :
    ∃ b w,
      (buildAndRun e (s.emit (.logFileEvent ev))).2.trace =
        s.trace ++ .logFileEvent ev :: b ∧
      b.countP Effect.isCmdRun = 1 ∧
      (fileEventStep e ev s).state.trace =
        s.trace ++ .logFileEvent ev :: (b ++ .watchRemove ev.name :: w) ∧
      (fileEventStep e ev s).state.runProcess =
        (buildAndRun e (s.emit (.logFileEvent ev))).2.runProcess ∧
      followsEnv e (buildAndRun e (s.emit (.logFileEvent ev))).2.tick w = true ∧
      ((fileEventStep e ev s).isPanic = false →
        (∃ rs, rs.map Prod.fst = s.watchersPaths ∧ w = resubscribeCalls rs) ∧
        ∃ P err, P ∈ s.watchersPaths ∧ filepathClean P = filepathClean ev.name ∧
          Effect.watchAdd P err ∈ w) ∧
      ((fileEventStep e ev s).isPanic = true →
        ∃ rs rest err, rs.map Prod.fst ++ c0d3vFilePath :: rest = s.watchersPaths ∧
          w = resubscribeCalls rs ++
            [.openFile c0d3vFilePath (some err), .logPanic err]) ∧
      (∀ k, k ∈ (fileEventStep e ev s).state.subscribed ↔
        (k ∈ s.subscribed ∧ k ≠ filepathClean ev.name) ∨
          ∃ P, filepathClean P = k ∧ Effect.watchAdd P none ∈ w) := by
  obtain ⟨b, hb1, hb2, _, hb4, hb5⟩ := buildAndRun_spec e (s.emit (.logFileEvent ev))
  obtain ⟨w, hw1, hw2, hw3, hw4, hw5, hw6⟩ := initWatcherLoop_spec e s.watchersPaths
    (watcherRemove ev.name (buildAndRun e (s.emit (.logFileEvent ev))).2)
  have hstep : fileEventStep e ev s =
      initWatcherLoop e s.watchersPaths
        (watcherRemove ev.name (buildAndRun e (s.emit (.logFileEvent ev))).2) := by
    unfold fileEventStep initWatcher
    dsimp only
    have : (watcherRemove ev.name (buildAndRun e (s.emit (.logFileEvent ev))).2).watchersPaths
        = s.watchersPaths := hb4
    rw [this]
  rw [hstep]
  refine ⟨b, w, ?_, hb2, ?_, hw6, hw2, ?_, hw4, ?_⟩
  · rw [hb1]
    simp
  · rw [hw1]
    simp [watcherRemove, hb1]
  · intro hnp
    obtain ⟨rs, hrs, hw⟩ := hw3 hnp
    refine ⟨⟨rs, hrs, hw⟩, ?_⟩
    obtain ⟨P, hPmem, hPc⟩ := hP
    rw [← hrs] at hPmem
    obtain ⟨⟨P2, r⟩, hmem, hfst⟩ := List.mem_map.mp hPmem
    simp only at hfst
    subst hfst
    refine ⟨P2, r, ?_, hPc, ?_⟩
    · rw [← hrs]
      exact List.mem_map.mpr ⟨(P2, r), hmem, rfl⟩
    · rw [hw]
      exact resubscribeCalls_mem rs P2 r hmem
  · intro k
    rw [hw5 k]
    have hsub : k ∈ (watcherRemove ev.name
        (buildAndRun e (s.emit (.logFileEvent ev))).2).subscribed ↔
        k ∈ s.subscribed ∧ k ≠ filepathClean ev.name := by
      have hb5' : (buildAndRun e (s.emit (.logFileEvent ev))).2.subscribed = s.subscribed := hb5
      unfold watcherRemove
      dsimp only
      rw [hb5']
      simp
    rw [hsub]

/-- Witness of C6 (amended): a write to the marker file, which the watcher
names `.c0d3v` while the watch set holds `./.c0d3v`, every call succeeding. -/
theorem fileEventStep_resubscribes_witness :
    (∃ P ∈ markerState.watchersPaths, filepathClean P = filepathClean markerWritten.name) ∧
    (fileEventStep okEnv markerWritten markerState).isPanic = false ∧
    ∃ b w,
      (fileEventStep okEnv markerWritten markerState).state.trace =
        markerState.trace ++
          .logFileEvent markerWritten :: (b ++ .watchRemove markerWritten.name :: w) ∧
      b.countP Effect.isCmdRun = 1 ∧
      (∃ rs, rs.map Prod.fst = markerState.watchersPaths ∧ w = resubscribeCalls rs) :=
  ⟨⟨"./.c0d3v", by decide, by decide⟩, by decide,
    (fileEventStep_resubscribes okEnv markerState markerWritten
      ⟨"./.c0d3v", by decide, by decide⟩).elim
      (fun b hb => hb.elim
        (fun w h => ⟨b, w, h.2.2.1, h.2.1, (h.2.2.2.2.2.1 (by decide)).1⟩))⟩

/-- C7: the listener on two notifications for `main.go`, the build of the first
exiting with status 1.  `buildAndRun()` returns that error and the listener
drops it: until the second notification its only log entries are the event and
the command line of the build, none carries the error.  The listener then
re-registers the path and handles the second notification. -/
theorem listener_drops_build_error :
    (buildAndRun firstFailsEnv (idleState.emit (.logFileEvent mainGoWritten))).1 =
      some "exit status 1" ∧
    (fileEventStep firstFailsEnv mainGoWritten idleState).state.trace =
      [.logFileEvent mainGoWritten, .logEx "go build -o _test.exe",
       .cmdRun "go" ["build", "-o", "_test.exe"] (some "exit status 1"),
       .watchRemove "main.go", .watchAdd "main.go" none] ∧
    (filesWatcherEventsProcessor firstFailsEnv [mainGoWritten, mainGoWritten]
        idleState).isPanic = false ∧
    (filesWatcherEventsProcessor firstFailsEnv [mainGoWritten, mainGoWritten]
        idleState).state.trace =
      [.logFileEvent mainGoWritten, .logEx "go build -o _test.exe",
       .cmdRun "go" ["build", "-o", "_test.exe"] (some "exit status 1"),
       .watchRemove "main.go", .watchAdd "main.go" none,
       .logFileEvent mainGoWritten, .logEx "go build -o _test.exe",
       .cmdRun "go" ["build", "-o", "_test.exe"] none, .logEx "_test.exe",
       .cmdStart "_test.exe" [] false none,
       .watchRemove "main.go", .watchAdd "main.go" none] := by
  decide

/-! ## The terminal listener -/

theorem keyEvent_ctrlB (e : Env) (s : State) (ev : TermEvent) (hk : ev.key = KeyCtrlB) :
    keyEvent e ev s =
      match build e (s.emit (.logLine "Build the project.")) with
      | (some err, s1) => .panicked err (s1.emit (.logPanic err))
      | (none, s1) => .ret false s1 := by
  unfold keyEvent
  rw [hk]
  simp [KeyCtrlB, KeyF5, KeyCtrlQ]

theorem keyEvent_ctrlR (e : Env) (s : State) (ev : TermEvent) (hk : ev.key = KeyCtrlR) :
    keyEvent e ev s =
      match run e (s.emit (.logLine "Run the executable.")) with
      | ((p, some err), s1) =>
        .panicked err ({ s1 with runProcess := p }.emit (.logPanic err))
      | ((p, none), s1) => .ret false { s1 with runProcess := p } := by
  unfold keyEvent
  rw [hk]
  simp [KeyCtrlB, KeyF5, KeyCtrlQ, KeyCtrlR]

theorem keyEvent_ctrlA (e : Env) (s : State) (ev : TermEvent) (hk : ev.key = KeyCtrlA) :
    keyEvent e ev s =
      match buildAndRun e (s.emit (.logLine "Build & Run.")) with
      | (some err, s1) => .panicked err (s1.emit (.logPanic err))
      | (none, s1) => .ret false s1 := by
  unfold keyEvent
  rw [hk]
  simp [KeyCtrlB, KeyF5, KeyCtrlQ, KeyCtrlR, KeyCtrlA]

/-- The calls `keyEvent` makes are never steps of the teardown. -/
theorem keyEvent_trace (e : Env) (s : State) (ev : TermEvent) :
    ∃ fx, (keyEvent e ev s).state.trace = s.trace ++ fx ∧
      ∀ x ∈ fx, x.isTeardown = false := by
  by_cases h5 : ev.key = KeyF5
  · refine ⟨[.logLine "Screen resync...", .termSync], ?_, by simp [Effect.isTeardown]⟩
    simp [keyEvent, h5, Res.state, State.emit]
  by_cases hq : ev.key = KeyCtrlQ
  · refine ⟨[.logLine "Quit!"], ?_, by simp [Effect.isTeardown]⟩
    simp [keyEvent, hq, Res.state, State.emit, KeyCtrlQ, KeyF5]
  by_cases hb : ev.key = KeyCtrlB
  · rw [keyEvent_ctrlB e s ev hb, build_eq]
    cases e.fail (s.emit (.logLine "Build the project.")).tick with
    | some err =>
      exact ⟨[.logLine "Build the project.", .logEx s.cmdBuild,
        .cmdRun ((stringsSplitSpace s.cmdBuild).headD "") (stringsSplitSpace s.cmdBuild).tail
          (some err), .logPanic err],
        by simp [Res.state, State.emit], by simp [Effect.isTeardown]⟩
    | none =>
      exact ⟨[.logLine "Build the project.", .logEx s.cmdBuild,
        .cmdRun ((stringsSplitSpace s.cmdBuild).headD "") (stringsSplitSpace s.cmdBuild).tail
          none],
        by simp [Res.state, State.emit], by simp [Effect.isTeardown]⟩
  by_cases hr : ev.key = KeyCtrlR
  · rw [keyEvent_ctrlR e s ev hr]
    obtain ⟨r, h1, h2, _, _⟩ := run_spec e (s.emit (.logLine "Run the executable."))
    split <;> rename_i heq <;> rw [heq] at h1 <;> dsimp only at h1
    · rename_i p err s1
      refine ⟨.logLine "Run the executable." :: (r ++ [.logPanic err]), ?_, ?_⟩
      · simp [Res.state, State.emit, h1]
      · intro x hx
        simp only [List.mem_cons, List.mem_append, List.mem_singleton, List.not_mem_nil,
          or_false] at hx
        rcases hx with hx | hx | hx
        · simp [hx, Effect.isTeardown]
        · exact (h2 x hx).2
        · simp [hx, Effect.isTeardown]
    · refine ⟨.logLine "Run the executable." :: r, ?_, ?_⟩
      · simp [Res.state, State.emit, h1]
      · intro x hx
        simp only [List.mem_cons] at hx
        rcases hx with hx | hx
        · simp [hx, Effect.isTeardown]
        · exact (h2 x hx).2
  by_cases ha : ev.key = KeyCtrlA
  · rw [keyEvent_ctrlA e s ev ha]
    obtain ⟨b, h1, _, h3, _, _⟩ := buildAndRun_spec e (s.emit (.logLine "Build & Run."))
    split <;> rename_i heq <;> rw [heq] at h1 <;> dsimp only at h1
    · rename_i err s1
      refine ⟨.logLine "Build & Run." :: (b ++ [.logPanic err]), ?_, ?_⟩
      · simp [Res.state, State.emit, h1]
      · intro x hx
        simp only [List.mem_cons, List.mem_append, List.mem_singleton, List.not_mem_nil,
          or_false] at hx
        rcases hx with hx | hx | hx
        · simp [hx, Effect.isTeardown]
        · exact h3 x hx
        · simp [hx, Effect.isTeardown]
    · refine ⟨.logLine "Build & Run." :: b, ?_, ?_⟩
      · simp [Res.state, State.emit, h1]
      · intro x hx
        simp only [List.mem_cons] at hx
        rcases hx with hx | hx
        · simp [hx, Effect.isTeardown]
        · exact h3 x hx
  · exact ⟨[], by simp [keyEvent, h5, hq, hb, hr, ha, Res.state], by simp⟩

/-- C8: in the terminal loop a key event of Ctrl-B, Ctrl-R or Ctrl-A whose
operation (`build()`, `run()`, `buildAndRun()`) returns an error makes
`keyEvent` panic with that error, and returns `false` when the operation
succeeds.  Whenever `keyEvent` panics, the terminal loop and the end of `main`
end in that panic: `group.Done()` is never called and no step of `shutDown`
(no `Stat`, `Close`, `Remove` or `Wait`) is taken. -/
theorem manual_failure_is_fatal (e : Env) (s : State) (ev : TermEvent)
    (rest : List TermEvent) (ht : ev.type = .EventKey) :
    (ev.key = KeyCtrlB →
      (∀ err, (build e (s.emit (.logLine "Build the project."))).1 = some err →
        keyEvent e ev s =
          .panicked err
            ((build e (s.emit (.logLine "Build the project."))).2.emit (.logPanic err))) ∧
      ((build e (s.emit (.logLine "Build the project."))).1 = none →
        keyEvent e ev s = .ret false (build e (s.emit (.logLine "Build the project."))).2)) ∧
    (ev.key = KeyCtrlR →
      (∀ err, (run e (s.emit (.logLine "Run the executable."))).1.2 = some err →
        keyEvent e ev s =
          .panicked err
            ({ (run e (s.emit (.logLine "Run the executable."))).2 with
               runProcess := (run e (s.emit (.logLine "Run the executable."))).1.1 }.emit
              (.logPanic err))) ∧
      ((run e (s.emit (.logLine "Run the executable."))).1.2 = none →
        keyEvent e ev s =
          .ret false
            { (run e (s.emit (.logLine "Run the executable."))).2 with
              runProcess := (run e (s.emit (.logLine "Run the executable."))).1.1 })) ∧
    (ev.key = KeyCtrlA →
      (∀ err, (buildAndRun e (s.emit (.logLine "Build & Run."))).1 = some err →
        keyEvent e ev s =
          .panicked err
            ((buildAndRun e (s.emit (.logLine "Build & Run."))).2.emit (.logPanic err))) ∧
      ((buildAndRun e (s.emit (.logLine "Build & Run."))).1 = none →
        keyEvent e ev s = .ret false (buildAndRun e (s.emit (.logLine "Build & Run."))).2)) ∧
    (∀ err st, keyEvent e ev s = .panicked err st →
      consoleEventsLoop e (ev :: rest) s = .panicked err st ∧
      mainFromLoop e (ev :: rest) s = .panicked err st ∧
      ∃ fx, st.trace = s.trace ++ fx ∧ ∀ x ∈ fx, x.isTeardown = false) := by
  refine ⟨?_, ?_, ?_, ?_⟩
  · intro hk
    rw [keyEvent_ctrlB e s ev hk]
    constructor
    · intro err h
      split <;> rename_i heq <;> rw [heq] at h <;> simp_all
    · intro h
      split <;> rename_i heq <;> rw [heq] at h <;> simp_all
  · intro hk
    rw [keyEvent_ctrlR e s ev hk]
    constructor
    · intro err h
      split <;> rename_i heq <;> rw [heq] at h <;> simp_all
    · intro h
      split <;> rename_i heq <;> rw [heq] at h <;> simp_all
  · intro hk
    rw [keyEvent_ctrlA e s ev hk]
    constructor
    · intro err h
      split <;> rename_i heq <;> rw [heq] at h <;> simp_all
    · intro h
      split <;> rename_i heq <;> rw [heq] at h <;> simp_all
  · intro err st h
    have hloop : consoleEventsLoop e (ev :: rest) s = .panicked err st := by
      unfold consoleEventsLoop
      rw [ht]
      dsimp only
      rw [h]
    refine ⟨hloop, ?_, ?_⟩
    · unfold mainFromLoop
      rw [hloop]
    · obtain ⟨fx, h1, h2⟩ := keyEvent_trace e s ev
      rw [h] at h1
      exact ⟨fx, h1, h2⟩

/-- Witness of C8: Ctrl-B when the build exits with status 1. -/
theorem manual_failure_is_fatal_witness :
    ctrlB.type = .EventKey ∧ ctrlB.key = KeyCtrlB ∧
    (build firstFailsEnv (idleState.emit (.logLine "Build the project."))).1 =
      some "exit status 1" ∧
    keyEvent firstFailsEnv ctrlB idleState =
      .panicked "exit status 1"
        ((build firstFailsEnv (idleState.emit (.logLine "Build the project."))).2.emit
          (.logPanic "exit status 1")) :=
  ⟨rfl, rfl, by decide,
    ((manual_failure_is_fatal firstFailsEnv idleState ctrlB [] rfl).1 rfl).1
      "exit status 1" (by decide)⟩

/-- C9: `keyEvent` returns `true` exactly for the quit key Ctrl-Q; for a key
that is none of F5, Ctrl-Q, Ctrl-B, Ctrl-R, Ctrl-A it returns `false` and leaves
the state, trace included, as it was: no call is made, no variable changes. -/
theorem keyEvent_quit_iff (e : Env) (s : State) (ev : TermEvent) :
    ((∃ s1, keyEvent e ev s = .ret true s1) ↔ ev.key = KeyCtrlQ) ∧
    (ev.key ≠ KeyF5 → ev.key ≠ KeyCtrlQ → ev.key ≠ KeyCtrlB → ev.key ≠ KeyCtrlR →
      ev.key ≠ KeyCtrlA → keyEvent e ev s = .ret false s) := by
  constructor
  · constructor
    · rintro ⟨s1, h⟩
      by_contra hq
      by_cases h5 : ev.key = KeyF5
      · simp [keyEvent, h5] at h
      by_cases hb : ev.key = KeyCtrlB
      · rw [keyEvent_ctrlB e s ev hb] at h
        split at h <;> simp at h
      by_cases hr : ev.key = KeyCtrlR
      · rw [keyEvent_ctrlR e s ev hr] at h
        split at h <;> simp at h
      by_cases ha : ev.key = KeyCtrlA
      · rw [keyEvent_ctrlA e s ev ha] at h
        split at h <;> simp at h
      · simp [keyEvent, h5, hq, hb, hr, ha] at h
    · intro hq
      exact ⟨s.emit (.logLine "Quit!"), by simp [keyEvent, hq, KeyCtrlQ, KeyF5]⟩
  · intro h5 hq hb hr ha
    simp [keyEvent, h5, hq, hb, hr, ha]

/-- Witness of C9: the letter `x` is ignored. -/
theorem keyEvent_quit_iff_witness :
    letterX.key ≠ KeyF5 ∧ letterX.key ≠ KeyCtrlQ ∧ letterX.key ≠ KeyCtrlB ∧
    letterX.key ≠ KeyCtrlR ∧ letterX.key ≠ KeyCtrlA ∧
    keyEvent okEnv letterX busyState = .ret false busyState :=
  ⟨by decide, by decide, by decide, by decide, by decide,
    (keyEvent_quit_iff okEnv busyState letterX).2 (by decide) (by decide) (by decide)
      (by decide) (by decide)⟩

/-! ## Command templates -/

theorem replaceFrom_skip (old new : List Char) (k : Nat) (cs : List Char) :
    replaceFrom old new k cs = replaceFrom old new 0 (cs.drop k) := by
  induction k generalizing cs with
  | zero => rfl
  | succ k ih =>
    cases cs with
    | nil => simp [replaceFrom]
    | cons c cs => simp [replaceFrom, ih cs]

theorem replaceFrom_nil (new : List Char) : replaceFrom ['$', '1'] new 0 [] = [] := rfl

theorem replaceFrom_match (new r : List Char) :
    replaceFrom ['$', '1'] new 0 ('$' :: '1' :: r) = new ++ replaceFrom ['$', '1'] new 0 r := by
  simp [replaceFrom]

theorem replaceFrom_other (new : List Char) (c : Char) (r : List Char)
    (h : ¬ (c = '$' ∧ ['1'] <+: r)) :
    replaceFrom ['$', '1'] new 0 (c :: r) = c :: replaceFrom ['$', '1'] new 0 r := by
  have hp : List.isPrefixOf ['$', '1'] (c :: r) = false := by
    rw [Bool.eq_false_iff]
    intro hp
    rw [List.isPrefixOf_iff_prefix] at hp
    apply h
    rw [List.cons_prefix_cons] at hp
    exact ⟨hp.1.symm, hp.2⟩
  simp only [replaceFrom, hp]
  simp

theorem placeholder_infix_cons (c : Char) (l : List Char) :
    ['$', '1'] <:+: c :: l ↔ (c = '$' ∧ ['1'] <+: l) ∨ ['$', '1'] <:+: l := by
  rw [List.infix_cons_iff, List.cons_prefix_cons]
  constructor
  · rintro (⟨h1, h2⟩ | h)
    · exact Or.inl ⟨h1.symm, h2⟩
    · exact Or.inr h
  · rintro (⟨h1, h2⟩ | h)
    · exact Or.inl ⟨h1.symm, h2⟩
    · exact Or.inr h

theorem one_prefix_iff (l : List Char) : ['1'] <+: l ↔ ∃ r, l = '1' :: r := by
  constructor
  · rintro ⟨r, hr⟩
    exact ⟨r, by simpa using hr.symm⟩
  · rintro ⟨r, rfl⟩
    exact ⟨r, rfl⟩

/-- The artifact path put before a text free of `$1` gives a text free of
`$1` that does not start with `1`. -/
theorem exeFile_append (m : List Char) (hm : ¬ ['$', '1'] <:+: m) :
    ¬ ['$', '1'] <:+: exeFile.toList ++ m ∧ ¬ ['1'] <+: exeFile.toList ++ m := by
  have hx : exeFile.toList = ['_', 't', 'e', 's', 't', '.', 'e', 'x', 'e'] := rfl
  rw [hx]
  constructor
  · simp only [List.cons_append, List.nil_append, placeholder_infix_cons]
    simp [hm]
  · simp [List.cons_prefix_cons]

theorem replaced_free_aux (n : Nat) :
    ∀ l : List Char, l.length ≤ n →
      ¬ ['$', '1'] <:+: replaceFrom ['$', '1'] exeFile.toList 0 l ∧
      (['1'] <+: replaceFrom ['$', '1'] exeFile.toList 0 l → ['1'] <+: l) := by
  induction n with
  | zero =>
    intro l hl
    have : l = [] := List.length_eq_zero.mp (Nat.le_zero.mp hl)
    subst this
    simp [replaceFrom_nil]
  | succ n ih =>
    intro l hl
    cases l with
    | nil => simp [replaceFrom_nil]
    | cons c r =>
      by_cases h : c = '$' ∧ ['1'] <+: r
      · obtain ⟨hc, hr⟩ := h
        obtain ⟨r2, rfl⟩ := (one_prefix_iff r).mp hr
        subst hc
        rw [replaceFrom_match]
        have hlen : r2.length ≤ n := by simp at hl; omega
        obtain ⟨h1, h2⟩ := exeFile_append _ (ih r2 hlen).1
        exact ⟨h1, fun hh => absurd hh h2⟩
      · rw [replaceFrom_other _ c r h]
        have hlen : r.length ≤ n := by simp at hl; omega
        obtain ⟨h1, h2⟩ := ih r hlen
        constructor
        · rw [placeholder_infix_cons]
          rintro (⟨hc, hp⟩ | hp)
          · exact h ⟨hc, h2 hp⟩
          · exact h1 hp
        · intro hp
          rw [List.cons_prefix_cons] at hp
          rw [List.cons_prefix_cons]
          exact ⟨hp.1, List.nil_prefix⟩

theorem replaced_unchanged (l : List Char) (h : ¬ ['$', '1'] <:+: l) :
    replaceFrom ['$', '1'] exeFile.toList 0 l = l := by
  induction l with
  | nil => rfl
  | cons c r ih =>
    rw [placeholder_infix_cons] at h
    push_neg at h
    rw [replaceFrom_other _ c r (by tauto), ih h.2]

theorem replaced_piece (p m : List Char) (h : ¬ ['$', '1'] <:+: p) :
    replaceFrom ['$', '1'] exeFile.toList 0 (p ++ ['$', '1'] ++ m) =
      p ++ exeFile.toList ++ replaceFrom ['$', '1'] exeFile.toList 0 m := by
  induction p with
  | nil => simpa using replaceFrom_match exeFile.toList m
  | cons c r ih =>
    rw [placeholder_infix_cons] at h
    push_neg at h
    have hno : ¬ (c = '$' ∧ ['1'] <+: r ++ ['$', '1'] ++ m) := by
      rintro ⟨hc, hp⟩
      cases r with
      | nil => simp [List.cons_prefix_cons] at hp
      | cons d r2 =>
        apply h.1 hc
        simp only [List.cons_append, List.cons_prefix_cons] at hp
        rw [List.cons_prefix_cons]
        exact ⟨hp.1, List.nil_prefix⟩
    have : c :: r ++ ['$', '1'] ++ m = c :: (r ++ ['$', '1'] ++ m) := by simp
    rw [this, replaceFrom_other _ c _ hno, ih h.2]
    simp

theorem replaced_pieces (pieces : List (List Char))
    (h : ∀ p ∈ pieces, ¬ ['$', '1'] <:+: p) :
    replaceFrom ['$', '1'] exeFile.toList 0 (List.intercalate ['$', '1'] pieces) =
      List.intercalate exeFile.toList pieces := by
  induction pieces with
  | nil => rfl
  | cons p ps ih =>
    cases ps with
    | nil =>
      simpa [List.intercalate] using replaced_unchanged p (h p (by simp))
    | cons q qs =>
      have hq : ∀ x ∈ q :: qs, ¬ ['$', '1'] <:+: x := fun x hx => h x (by simp [hx])
      have e1 : List.intercalate ['$', '1'] (p :: q :: qs) =
          p ++ ['$', '1'] ++ List.intercalate ['$', '1'] (q :: qs) := by
        simp [List.intercalate]
      have e2 : List.intercalate exeFile.toList (p :: q :: qs) =
          p ++ exeFile.toList ++ List.intercalate exeFile.toList (q :: qs) := by
        simp [List.intercalate]
      rw [e1, e2, replaced_piece p _ (h p (by simp)), ih hq]

/-- C10: after `init` the build command and the run command are their
templates with the placeholder replaced by `_test.exe`, and these are the
commands `build()` and `run()` log, split and execute.  For every template `t`
the substituted command contains no `$1`; it equals `t` when `t` contains no
`$1`; and when `t` is made of pieces free of `$1` joined by `$1`, it is the same
pieces joined by `_test.exe`: every occurrence is replaced. -/
theorem command_template_substitution (e : Env) (s : State) (t : String) :
    (build e (init s)).2.trace =
      s.trace ++
        [.logEx (stringsReplaceAll s.cmdBuild "$1" exeFile),
         .cmdRun ((stringsSplitSpace (stringsReplaceAll s.cmdBuild "$1" exeFile)).headD "")
           (stringsSplitSpace (stringsReplaceAll s.cmdBuild "$1" exeFile)).tail
           (e.fail s.tick)] ∧
    (∃ pre err, (run e (init s)).2.trace =
      pre ++
        [.logEx (stringsReplaceAll s.cmdRun "$1" exeFile),
         .cmdStart ((stringsSplitSpace (stringsReplaceAll s.cmdRun "$1" exeFile)).headD "")
           (stringsSplitSpace (stringsReplaceAll s.cmdRun "$1" exeFile)).tail
           s.redirectInput err]) ∧
    ¬ "$1".toList <:+: (stringsReplaceAll t "$1" exeFile).toList ∧
    (¬ "$1".toList <:+: t.toList → stringsReplaceAll t "$1" exeFile = t) ∧
    (∀ pieces : List (List Char), (∀ p ∈ pieces, ¬ "$1".toList <:+: p) →
      t.toList = List.intercalate "$1".toList pieces →
      (stringsReplaceAll t "$1" exeFile).toList = List.intercalate exeFile.toList pieces) := by
  have hD : "$1".toList = ['$', '1'] := rfl
  have hR : (stringsReplaceAll t "$1" exeFile).toList =
      replaceFrom ['$', '1'] exeFile.toList 0 t.toList := rfl
  refine ⟨?_, ?_, ?_, ?_, ?_⟩
  · rw [build_eq]
    rfl
  · unfold run
    cases hp : (init s).runProcess with
    | none =>
      dsimp only
      refine ⟨s.trace, e.fail s.tick, ?_⟩
      simp only [State.emit, State.step]
      split <;> simp [init]
    | some p =>
      dsimp only
      refine ⟨s.trace ++ [.kill p (e.fail s.tick)], e.fail (s.tick + 1), ?_⟩
      simp only [State.emit, State.step]
      split <;> simp [init]
  · rw [hD, hR]
    exact (replaced_free_aux t.toList.length t.toList (Nat.le_refl _)).1
  · intro h
    rw [hD] at h
    have := replaced_unchanged t.toList h
    unfold stringsReplaceAll
    rw [hD, this]
    rfl
  · intro pieces hp ht
    rw [hD] at hp ht
    rw [hR, ht]
    exact replaced_pieces pieces hp

/-- Witness of C10: the default build template `go build -o $1` and a template
without placeholder. -/
theorem command_template_substitution_witness :
    stringsReplaceAll "go build -o $1" "$1" exeFile = "go build -o _test.exe" ∧
    ¬ "$1".toList <:+: "echo run".toList ∧
    stringsReplaceAll "echo run" "$1" exeFile = "echo run" :=
  ⟨by decide, by decide,
    (command_template_substitution okEnv idleState "echo run").2.2.2.1 (by decide)⟩

end GoInLive
